import Mathlib

/-!
Verification of the air-cargo-booking repository core:
a shallow embedding of the booking lifecycle manager, the Redis-backed
distributed lock manager and booking cache, and the route finder, with
theorems checking the design document claims against the code.

The repository ships two implementations of the booking service:
* `BookingService` (src/air-cargo-booking/src/config/database.js): the
  lock-protected variant with a version-gated conditional update and the
  CANCELLED-after-ARRIVED business rule.
* `BookingServiceA` (src/unnamed/part_001): the plain variant with no lock,
  a plain status update (no version change) and the CANCELLED-after-DELIVERED
  business rule.
Both are embedded faithfully below.
-/

namespace AirCargo

/-- Booking / timeline status enum, as in the SQL schema. -/
inductive BookingStatus
  | BOOKED
  | DEPARTED
  | ARRIVED
  | DELIVERED
  | CANCELLED
deriving DecidableEq, Repr

/-- The string name of a status, used in default timeline descriptions
(JS template literal in both service variants). -/
def statusName : BookingStatus → String
  | .BOOKED => "BOOKED"
  | .DEPARTED => "DEPARTED"
  | .ARRIVED => "ARRIVED"
  | .DELIVERED => "DELIVERED"
  | .CANCELLED => "CANCELLED"

/-- A row of the `bookings` table (schema.sql). `version` has DEFAULT 1. -/
structure BookingRow where
  id : Nat
  refId : String
  userId : Nat
  origin : String
  destination : String
  pieces : Nat
  weightKg : Nat
  status : BookingStatus
  version : Nat
deriving DecidableEq, Repr

/-- A row of the `booking_flights` table. -/
structure BookingFlightRow where
  bookingId : Nat
  flightId : String
  seqOrder : Nat
deriving DecidableEq, Repr

/-- A row of the `timeline_events` table. `id` is the auto-increment key,
`createdAt` the insertion timestamp. -/
structure TimelineRow where
  id : Nat
  bookingId : Nat
  eventType : BookingStatus
  location : Option String
  flightId : Option String
  description : String
  createdAt : Nat
deriving DecidableEq, Repr

/-- A row of the `flights` table. Timestamps are minutes on an absolute
integer timeline (the code normalizes to UTC). -/
structure FlightRow where
  flightId : String
  flightNumber : String
  airlineName : String
  departure : Int
  arrival : Int
  origin : String
  destination : String
deriving DecidableEq, Repr

/-- The relational store: the four tables plus auto-increment counters and
the current clock used for `created_at` values. -/
structure Store where
  bookings : List BookingRow
  bookingFlights : List BookingFlightRow
  timeline : List TimelineRow
  flights : List FlightRow
  nextBookingId : Nat
  nextEventId : Nat
  now : Nat
deriving DecidableEq, Repr

/-- JS `s.startsWith(pre)`, over the character lists of the strings (the
built-in `String.startsWith` is observationally the same but does not reduce
by evaluation in proofs). -/
def strStartsWith (s pre : String) : Bool :=
  pre.data.isPrefixOf s.data

/-- Association-list read, modelling a Redis GET. -/
def kvGet {α : Type} (l : List (String × α)) (k : String) : Option α :=
  (l.find? (fun p => p.1 == k)).map (fun p => p.2)

/-- Association-list delete, modelling a Redis DEL. -/
def kvDel {α : Type} (l : List (String × α)) (k : String) : List (String × α) :=
  l.filter (fun p => p.1 != k)

/-- Association-list overwrite, modelling a Redis SET. -/
def kvSet {α : Type} (l : List (String × α)) (k : String) (v : α) :
    List (String × α) :=
  (k, v) :: kvDel l k

/-- `SELECT ... FROM bookings WHERE ref_id = ?` (first matching row;
`ref_id` is UNIQUE in the schema). -/
def findBooking (st : Store) (refId : String) : Option BookingRow :=
  st.bookings.find? (fun b => b.refId == refId)

/-- The aggregate a booking read returns: the row, its leg list (JOINed with
`flights`, ordered by sequence) and its ordered timeline. -/
structure LegView where
  flightId : String
  seqOrder : Nat
  flightNumber : String
  airlineName : String
deriving DecidableEq, Repr

structure BookingAggregate where
  booking : BookingRow
  flights : List LegView
  timeline : List TimelineRow
deriving DecidableEq, Repr

/-- The cache/lock store state (src/src/config/redis.js): a connected flag,
the JSON cache (booking aggregates) and the lock namespace. -/
structure CacheState where
  connected : Bool
  kv : List (String × BookingAggregate)
  locks : List (String × String)
deriving DecidableEq, Repr

namespace RedisClient

/-- `RedisClient.get`: returns null when disconnected or the key is absent. -/
def get (c : CacheState) (key : String) : Option BookingAggregate :=
  if c.connected then kvGet c.kv key else none

/-- `RedisClient.set`: no-op returning false when disconnected. -/
def set (c : CacheState) (key : String) (v : BookingAggregate) :
    Bool × CacheState :=
  if c.connected then (true, { c with kv := kvSet c.kv key v }) else (false, c)

/-- `RedisClient.del`: no-op returning false when disconnected. -/
def del (c : CacheState) (key : String) : Bool × CacheState :=
  if c.connected then (true, { c with kv := kvDel c.kv key }) else (false, c)

/-- `RedisClient.acquireLock`: SET lock:key value NX PX. The generated
holder identifier and timestamp are nondeterministic in the code
(Date.now and Math.random), so they are inputs here. Returns the lock id
on success, none when disconnected, already held, or the client errors. -/
def acquireLock (c : CacheState) (lockKey lockId ts : String) :
    Option String × CacheState :=
  if c.connected then
    match kvGet c.locks ("lock:" ++ lockKey) with
    | some _ => (none, c)
    | none =>
      (some lockId,
       { c with locks := kvSet c.locks ("lock:" ++ lockKey) (lockId ++ ":" ++ ts) })
  else (none, c)

/-- `RedisClient.releaseLock`: guard clauses for a disconnected client or a
falsy key/lock id, then a read of the current lock value, a holder check
(the stored value starts with the holder id followed by a colon) and a
compare-and-delete via the Lua script. -/
def releaseLock (c : CacheState) (lockKey : String) (lockId : Option String) :
    Bool × CacheState :=
  if c.connected then
    if lockKey == "" then (false, c)
    else
      match lockId with
      | none => (false, c)
      | some lid =>
        if lid == "" then (false, c)
        else
          match kvGet c.locks ("lock:" ++ lockKey) with
          | none => (false, c)
          | some cur =>
            if strStartsWith cur (lid ++ ":") then
              (true, { c with locks := kvDel c.locks ("lock:" ++ lockKey) })
            else (false, c)
  else (false, c)

/-- `RedisClient.getCachedBooking`. -/
def getCachedBooking (c : CacheState) (refId : String) :
    Option BookingAggregate :=
  get c ("booking:" ++ refId)

/-- `RedisClient.cacheBooking` (10-minute TTL not modelled). -/
def cacheBooking (c : CacheState) (refId : String) (v : BookingAggregate) :
    Bool × CacheState :=
  set c ("booking:" ++ refId) v

/-- `RedisClient.invalidateBookingCache`. -/
def invalidateBookingCache (c : CacheState) (refId : String) :
    Bool × CacheState :=
  del c ("booking:" ++ refId)

end RedisClient

/-- The service error taxonomy, one constructor per `throw new Error(...)`
site reached by the operations modelled here. -/
inductive SvcError
  | lockUnavailable
  | notFound
  | cannotCancelArrived
  | cannotCancelDelivered
  | concurrentUpdate
  | duplicateRef
  | constraintViolation
deriving DecidableEq, Repr

/-- `INSERT INTO timeline_events ...`: appends a row with the next
auto-increment id and the current clock as `created_at`. -/
def insertEvent (st : Store) (bid : Nat) (ty : BookingStatus)
    (loc fid : Option String) (desc : String) : Store :=
  { st with
    timeline := st.timeline ++ [⟨st.nextEventId, bid, ty, loc, fid, desc, st.now⟩],
    nextEventId := st.nextEventId + 1 }

/-- The leg sub-query of a booking read: rows of `booking_flights` for the
booking, ordered by `sequence_order`, JOINed with `flights` on `flight_id`
(rows whose flight is absent are dropped by the inner join;
`flight_id` is the primary key of `flights`, so at most one row matches). -/
def legRows (st : Store) (bid : Nat) : List LegView :=
  (((st.bookingFlights.filter (fun bf => bf.bookingId == bid)).insertionSort
      (fun a b => a.seqOrder ≤ b.seqOrder)).filterMap
    (fun bf => (st.flights.find? (fun f => f.flightId == bf.flightId)).map
      (fun f => ⟨bf.flightId, bf.seqOrder, f.flightNumber, f.airlineName⟩)))

/-- The timeline sub-query: events of the booking ordered by
`created_at ASC, id ASC`. -/
def timelineRows (st : Store) (bid : Nat) : List TimelineRow :=
  (st.timeline.filter (fun e => e.bookingId == bid)).insertionSort
    (fun a b =>
      a.createdAt < b.createdAt ∨ (a.createdAt = b.createdAt ∧ a.id ≤ b.id))

/-- The pure read composing the three queries of `getBookingHistory` into
one aggregate; none when the booking row is absent. -/
def dbAggregate (st : Store) (refId : String) : Option BookingAggregate :=
  (findBooking st refId).map (fun b => ⟨b, legRows st b.id, timelineRows st b.id⟩)

namespace BookingServiceA

/-- `getBookingHistory(refId, forceDb)` of src/unnamed/part_001: unless the
read is forced to the store, a cache hit is returned directly; on a miss the
three queries build the aggregate, which is cached and returned; null when
the booking is absent. -/
def getBookingHistory (st : Store) (c : CacheState) (refId : String)
    (forceDb : Bool) : Option BookingAggregate × CacheState :=
  match if forceDb then none else RedisClient.getCachedBooking c refId with
  | some cached => (some cached, c)
  | none =>
    match dbAggregate st refId with
    | none => (none, c)
    | some agg => (some agg, (RedisClient.cacheBooking c refId agg).2)

/-- Input of `createBooking` (validated body fields plus the owner). -/
structure BookingData where
  userId : Nat
  origin : String
  destination : String
  pieces : Nat
  weightKg : Nat
deriving DecidableEq, Repr

/-- The flight-mapping insert loop of `createBooking`: one
`INSERT INTO booking_flights` per id with sequence order `i`, `i+1`, ....
An insert fails (and the transaction rolls back) when it would violate the
UNIQUE(booking_id, flight_id) key or the foreign key into `flights`. -/
def insertLegs : Store → Nat → List String → Nat → Except SvcError Store
  | st, _, [], _ => .ok st
  | st, bid, fid :: rest, i =>
    if st.bookingFlights.any (fun r => r.bookingId == bid && r.flightId == fid) then
      .error .constraintViolation
    else if st.flights.any (fun f => f.flightId == fid) then
      insertLegs
        { st with bookingFlights := st.bookingFlights ++ [⟨bid, fid, i⟩] }
        bid rest (i + 1)
    else .error .constraintViolation

/-- `createBooking` of src/unnamed/part_001. Within one transaction: insert
the booking row (status BOOKED, version at its column default 1), insert the
flight mappings in order with sequence 1.., insert one BOOKED timeline event
(location = origin, flight reference = first leg if any). On any failure the
transaction rolls back. After commit the booking is re-read from the store
(forced) and cached, and that aggregate is returned. The generated reference
code is nondeterministic (time plus random), so it is an input; the UNIQUE
constraint on `ref_id` makes the insert fail on a duplicate. -/
def createBooking (st : Store) (c : CacheState) (newRefId : String)
    (d : BookingData) (flightIds : List String) :
    Except SvcError (Option BookingAggregate) × Store × CacheState :=
  if st.bookings.any (fun b => b.refId == newRefId) then
    (.error .duplicateRef, st, c)
  else
    let bid := st.nextBookingId
    let row : BookingRow :=
      ⟨bid, newRefId, d.userId, d.origin, d.destination, d.pieces, d.weightKg,
        .BOOKED, 1⟩
    let st1 := { st with bookings := st.bookings ++ [row], nextBookingId := bid + 1 }
    match insertLegs st1 bid flightIds 1 with
    | .error e => (.error e, st, c)
    | .ok st2 =>
      let st3 := insertEvent st2 bid .BOOKED (some d.origin) flightIds.head?
        "Booking created successfully"
      let res := (getBookingHistory st3 c newRefId true).1
      let c1 := (getBookingHistory st3 c newRefId true).2
      match res with
      | some agg => (.ok res, st3, (RedisClient.cacheBooking c1 newRefId agg).2)
      | none => (.ok res, st3, c1)

/-- `UPDATE bookings SET status = ? WHERE ref_id = ?` of part_001: every row
with the reference code gets the new status; version is not touched. -/
def setStatusWhereRef (bs : List BookingRow) (refId : String)
    (s : BookingStatus) : List BookingRow :=
  bs.map (fun b => if b.refId == refId then { b with status := s } else b)

/-- `updateBookingStatus` of src/unnamed/part_001. One transaction: read the
booking (not found fails), reject CANCELLED when the current status is
DELIVERED, update the status (no version change), append a timeline event
(no flight reference column in this variant). After commit: invalidate the
cached entry, then return a forced re-read of the booking. -/
def updateBookingStatus (st : Store) (c : CacheState) (refId : String)
    (status : BookingStatus) (location : Option String)
    (description : Option String) :
    Except SvcError (Option BookingAggregate) × Store × CacheState :=
  match findBooking st refId with
  | none => (.error .notFound, st, c)
  | some booking =>
    if status = .CANCELLED ∧ booking.status = .DELIVERED then
      (.error .cannotCancelDelivered, st, c)
    else
      let st1 := { st with bookings := setStatusWhereRef st.bookings refId status }
      let st2 := insertEvent st1 booking.id status location none
        (description.getD ("Status updated to " ++ statusName status))
      let c1 := (RedisClient.invalidateBookingCache c refId).2
      (.ok (getBookingHistory st2 c1 refId true).1, st2,
        (getBookingHistory st2 c1 refId true).2)

end BookingServiceA

namespace BookingService

/-- The version-gated conditional update of the lock-protected variant:
`UPDATE bookings SET status = ?, version = version + 1
 WHERE ref_id = ? AND version = ?`.
Returns the updated table and the number of affected rows. -/
def updateWhereRefAndVersion (bs : List BookingRow) (refId : String) (v : Nat)
    (s : BookingStatus) : List BookingRow × Nat :=
  (bs.map (fun b =>
      if b.refId == refId && b.version == v then
        { b with status := s, version := b.version + 1 }
      else b),
   (bs.filter (fun b => b.refId == refId && b.version == v)).length)

/-- The value a successful lock-protected `updateBookingStatus` returns:
`{ success: true, refId, status }`. -/
structure UpdateAck where
  success : Bool
  refId : String
  status : BookingStatus
deriving DecidableEq, Repr

/-- `updateBookingStatus` of
src/air-cargo-booking/src/config/database.js. Steps: acquire the per-booking
lock (single attempt; failure throws before any store or cache access);
inside one transaction read the booking (not found fails), reject CANCELLED
when the current status is ARRIVED, run the version-gated conditional update
(zero affected rows fails with the concurrent-update error and rolls back),
append the timeline event, invalidate the cached entry (this happens inside
the transaction callback, after the last failure point), commit; the lock is
released in a finally block on every path (with a null lock id when
acquisition failed, which the release guard turns into a no-op). -/
def updateBookingStatus (st : Store) (c : CacheState) (lockId ts : String)
    (refId : String) (status : BookingStatus)
    (location flightId description : Option String) :
    Except SvcError UpdateAck × Store × CacheState :=
  let lockKey := "booking_" ++ refId
  let acq := RedisClient.acquireLock c lockKey lockId ts
  match acq.1 with
  | none =>
    (.error .lockUnavailable, st, (RedisClient.releaseLock acq.2 lockKey none).2)
  | some lid =>
    match findBooking st refId with
    | none =>
      (.error .notFound, st, (RedisClient.releaseLock acq.2 lockKey (some lid)).2)
    | some booking =>
      if status = .CANCELLED ∧ booking.status = .ARRIVED then
        (.error .cannotCancelArrived, st,
          (RedisClient.releaseLock acq.2 lockKey (some lid)).2)
      else
        let upd := updateWhereRefAndVersion st.bookings refId booking.version status
        if upd.2 = 0 then
          (.error .concurrentUpdate, st,
            (RedisClient.releaseLock acq.2 lockKey (some lid)).2)
        else
          let st2 := insertEvent { st with bookings := upd.1 } booking.id status
            location flightId
            (description.getD ("Status updated to " ++ statusName status))
          let c2 := (RedisClient.invalidateBookingCache acq.2 refId).2
          (.ok ⟨true, refId, status⟩, st2,
            (RedisClient.releaseLock c2 lockKey (some lid)).2)

/-- One status-update request against the lock-protected variant; the lock
identifier and timestamp stand for the nondeterministic values the client
generates. -/
structure UpdateReq where
  lockId : String
  ts : String
  status : BookingStatus
  location : Option String
  flightId : Option String
  description : Option String
deriving DecidableEq, Repr

/-- Sequential application of status updates to one reference code through
the lock-protected variant, stopping at the first failure. -/
def runUpdates (st : Store) (c : CacheState) (refId : String) :
    List UpdateReq → Except SvcError Unit × Store × CacheState
  | [] => (.ok (), st, c)
  | r :: rest =>
    let u := updateBookingStatus st c r.lockId r.ts refId r.status r.location
      r.flightId r.description
    match u.1 with
    | .ok _ => runUpdates u.2.1 u.2.2 refId rest
    | .error e => (.error e, u.2.1, u.2.2)

end BookingService

/-- One leg of a transit route as returned by `getTransitRoutes`. -/
structure TransitSegment where
  flightId : String
  departure : Int
  arrival : Int
  origin : String
  destination : String
  segOrder : Nat
deriving DecidableEq, Repr

/-- A one-stop transit route as returned by `getTransitRoutes`. -/
structure TransitRoute where
  totalDuration : Int
  layoverMinutes : Int
  transitHub : String
  leg1 : TransitSegment
  leg2 : TransitSegment
deriving DecidableEq, Repr

namespace FlightService

/-- The WHERE clause (plus the JOIN condition) of the transit query of
src/unnamed/part_000 `getTransitRoutes`, on a pair (f1, f2) of flight rows:
f1.destination = f2.origin, endpoints match, f1 departs within the queried
day (BETWEEN is inclusive) and no earlier than NOW(), f2 departs at most one
day after f1 departs, the layover is between 60 and 1440 minutes inclusive,
and f2 departs strictly after f1 arrives. -/
def transitCond (origin destination : String) (dayStart dayEnd nowT : Int)
    (p : FlightRow × FlightRow) : Bool :=
  p.1.destination == p.2.origin &&
  p.1.origin == origin &&
  p.2.destination == destination &&
  decide (dayStart ≤ p.1.departure) &&
  decide (p.1.departure ≤ dayEnd) &&
  decide (nowT ≤ p.1.departure) &&
  decide (p.2.departure ≤ p.1.departure + 1440) &&
  decide (60 ≤ p.2.departure - p.1.arrival) &&
  decide (p.2.departure - p.1.arrival ≤ 1440) &&
  decide (p.1.arrival < p.2.departure)

/-- The ORDER BY key of the transit query: total duration
(TIMESTAMPDIFF from f1 departure to f2 arrival) ascending, then f1
departure ascending. -/
def transitLe (a b : FlightRow × FlightRow) : Prop :=
  a.2.arrival - a.1.departure < b.2.arrival - b.1.departure ∨
    (a.2.arrival - a.1.departure = b.2.arrival - b.1.departure ∧
      a.1.departure ≤ b.1.departure)

instance : DecidableRel transitLe := fun a b => by
  unfold transitLe
  infer_instance

/-- The SELECT list of the transit query: both legs with explicit segment
order 1 and 2, the transit hub, and the computed total and layover
durations. -/
def mkTransitRoute (p : FlightRow × FlightRow) : TransitRoute :=
  { totalDuration := p.2.arrival - p.1.departure
    layoverMinutes := p.2.departure - p.1.arrival
    transitHub := p.1.destination
    leg1 := ⟨p.1.flightId, p.1.departure, p.1.arrival, p.1.origin,
      p.1.destination, 1⟩
    leg2 := ⟨p.2.flightId, p.2.departure, p.2.arrival, p.2.origin,
      p.2.destination, 2⟩ }

/-- `getTransitRoutes` of src/unnamed/part_000: the self-join of the
`flights` table filtered by `transitCond`, stably sorted by `transitLe`
(ORDER BY total_duration ASC, f1.departure_datetime ASC), LIMIT 50, mapped
to route objects. The day window and NOW() are inputs (the code computes
them from the queried date and the wall clock). -/
def getTransitRoutes (flights : List FlightRow) (origin destination : String)
    (dayStart dayEnd nowT : Int) : List TransitRoute :=
  ((((flights.flatMap (fun f1 => flights.map (fun f2 => (f1, f2)))).filter
      (transitCond origin destination dayStart dayEnd nowT)).insertionSort
    transitLe).take 50).map mkTransitRoute

end FlightService

deriving instance DecidableEq for Except

/-! ### Concrete fixtures used by witnesses and counterexamples -/

def exBooking (s : BookingStatus) (v : Nat) : BookingRow :=
  ⟨1, "AC1", 7, "DEL", "BLR", 2, 10, s, v⟩

def exStore (s : BookingStatus) (v : Nat) : Store :=
  ⟨[exBooking s v], [], [], [], 2, 1, 100⟩

/-- Like `exStore` but with one pre-existing timeline event. -/
def exStoreT (s : BookingStatus) (v : Nat) : Store :=
  ⟨[exBooking s v], [],
   [⟨0, 1, .BOOKED, some "DEL", none, "Booking created successfully", 10⟩],
   [], 2, 1, 100⟩

def cacheUp : CacheState := ⟨true, [], []⟩

def cacheHeld : CacheState := ⟨true, [], [("lock:booking_AC1", "X:1")]⟩

def cacheDown : CacheState := ⟨false, [], []⟩

def exFlight1 : FlightRow := ⟨"F1", "6E1", "IndiGo", 600, 700, "DEL", "HYD"⟩

def exFlight2 : FlightRow := ⟨"F2", "AI2", "AirIndia", 800, 900, "HYD", "BLR"⟩

def exStoreF : Store := ⟨[], [], [], [exFlight1, exFlight2], 1, 1, 50⟩

/-! ### Helper lemmas -/

theorem kvGet_kvSet_self {α : Type} (l : List (String × α)) (k : String) (v : α) :
    kvGet (kvSet l k v) k = some v := by
  simp [kvGet, kvSet, List.find?_cons]

theorem kvDel_of_kvGet_none {α : Type} (l : List (String × α)) (k : String)
    (h : kvGet l k = none) : kvDel l k = l := by
  unfold kvGet at h
  rw [Option.map_eq_none', List.find?_eq_none] at h
  unfold kvDel
  rw [List.filter_eq_self]
  intro a ha
  have h2 := h a ha
  simp only [Bool.not_eq_true] at h2
  simp [bne, h2]

/-- The finally-block release with a null lock id is a no-op returning
false (the guard clause of `releaseLock`). -/
theorem releaseLock_none (c : CacheState) (k : String) :
    RedisClient.releaseLock c k none = (false, c) := by
  unfold RedisClient.releaseLock
  rcases hc : c.connected <;> simp

/-- `acquireLock` leaves the cache state untouched and returns none when the
lock key is already present. -/
theorem acquireLock_held (c : CacheState) (k lid ts v : String)
    (h : kvGet c.locks ("lock:" ++ k) = some v) :
    RedisClient.acquireLock c k lid ts = (none, c) := by
  unfold RedisClient.acquireLock
  rcases hc : c.connected <;> simp [h]

/-- After the version-gated map update, the first row carrying the reference
code is the found row with the new status and a version bumped by one. -/
theorem find_map_update (bs : List BookingRow) (refId : String) (b : BookingRow)
    (s : BookingStatus)
    (h : bs.find? (fun x => x.refId == refId) = some b) :
    (bs.map (fun x =>
        if x.refId == refId && x.version == b.version then
          { x with status := s, version := x.version + 1 }
        else x)).find? (fun x => x.refId == refId) =
      some { b with status := s, version := b.version + 1 } := by
  induction bs with
  | nil => simp at h
  | cons hd tl ih =>
    by_cases hh : (hd.refId == refId) = true
    · simp only [List.find?_cons, hh] at h
      obtain rfl : hd = b := by injection h
      have heq : hd.refId = refId := by simpa using hh
      simp [List.find?_cons, heq]
    · simp only [Bool.not_eq_true] at hh
      simp only [List.find?_cons, hh] at h
      have htl := ih h
      simp only [List.map_cons, hh, Bool.false_and, Bool.false_eq_true,
        if_false, List.find?_cons]
      exact htl

/-- After part_001's plain status update, the first row carrying the
reference code is the found row with the new status (version untouched). -/
theorem find_setStatus (bs : List BookingRow) (refId : String) (b : BookingRow)
    (s : BookingStatus)
    (h : bs.find? (fun x => x.refId == refId) = some b) :
    (BookingServiceA.setStatusWhereRef bs refId s).find?
        (fun x => x.refId == refId) = some { b with status := s } := by
  unfold BookingServiceA.setStatusWhereRef
  induction bs with
  | nil => simp at h
  | cons hd tl ih =>
    by_cases hh : (hd.refId == refId) = true
    · simp only [List.find?_cons, hh] at h
      obtain rfl : hd = b := by injection h
      have heq : hd.refId = refId := by simpa using hh
      simp [List.find?_cons, heq]
    · simp only [Bool.not_eq_true] at hh
      simp only [List.find?_cons, hh] at h
      have htl := ih h
      simp only [List.map_cons, hh, Bool.false_eq_true, if_false,
        List.find?_cons]
      exact htl

/-- A successful lock-protected update found the booking and bumped exactly
its version by one while setting the new status. -/
theorem updateL_ok_bump (st : Store) (c : CacheState) (lid ts refId : String)
    (status : BookingStatus) (loc fid desc : Option String)
    (a : BookingService.UpdateAck) (st2 : Store) (c2 : CacheState)
    (h : BookingService.updateBookingStatus st c lid ts refId status loc fid desc
        = (.ok a, st2, c2)) :
    ∃ b, findBooking st refId = some b ∧
      findBooking st2 refId =
        some { b with status := status, version := b.version + 1 } := by
  simp only [BookingService.updateBookingStatus] at h
  rcases hacq : (RedisClient.acquireLock c ("booking_" ++ refId) lid ts).1 with _ | l
  · simp only [hacq] at h
    simp at h
  · simp only [hacq] at h
    rcases hfind : findBooking st refId with _ | b
    · simp only [hfind] at h
      simp at h
    · simp only [hfind] at h
      by_cases hrule : status = BookingStatus.CANCELLED ∧
          b.status = BookingStatus.ARRIVED
      · rw [if_pos hrule] at h
        simp at h
      · rw [if_neg hrule] at h
        by_cases hz : (BookingService.updateWhereRefAndVersion st.bookings refId
            b.version status).2 = 0
        · rw [if_pos hz] at h
          simp at h
        · rw [if_neg hz] at h
          simp only [Prod.mk.injEq] at h
          obtain ⟨-, hst, -⟩ := h
          refine ⟨b, rfl, ?_⟩
          rw [← hst]
          have hfind2 : st.bookings.find? (fun x => x.refId == refId) = some b :=
            hfind
          simp only [findBooking, insertEvent,
            BookingService.updateWhereRefAndVersion]
          exact find_map_update st.bookings refId b status hfind2

/-- C1 helper: N successful updates through the lock-protected variant add
exactly N to the booking's version. -/
theorem runUpdates_version (reqs : List BookingService.UpdateReq)
    (st : Store) (c : CacheState) (refId : String) (b : BookingRow)
    (hfind : findBooking st refId = some b)
    (hok : (BookingService.runUpdates st c refId reqs).1 = .ok ()) :
    ∃ b2, findBooking (BookingService.runUpdates st c refId reqs).2.1 refId =
        some b2 ∧ b2.version = b.version + reqs.length := by
  induction reqs generalizing st c b with
  | nil =>
    simp only [BookingService.runUpdates, List.length_nil]
    exact ⟨b, hfind, rfl⟩
  | cons r rest ih =>
    simp only [BookingService.runUpdates] at hok ⊢
    rcases hu1 : (BookingService.updateBookingStatus st c r.lockId r.ts refId
        r.status r.location r.flightId r.description).1 with e | a
    · simp only [hu1] at hok
      simp at hok
    · simp only [hu1] at hok ⊢
      have hu : BookingService.updateBookingStatus st c r.lockId r.ts refId
          r.status r.location r.flightId r.description =
          (.ok a,
           (BookingService.updateBookingStatus st c r.lockId r.ts refId
              r.status r.location r.flightId r.description).2.1,
           (BookingService.updateBookingStatus st c r.lockId r.ts refId
              r.status r.location r.flightId r.description).2.2) := by
        rw [← hu1]
      obtain ⟨b1, hb1, hb1context⟩ :=
        updateL_ok_bump st c r.lockId r.ts refId r.status r.location r.flightId
          r.description a _ _ hu
      obtain rfl : b1 = b := by
        rw [hfind] at hb1
        injection hb1 with hb1e
        exact hb1e.symm
      obtain ⟨b2, hb2, hv2⟩ := ih _ _ _ hb1context hok
      refine ⟨b2, hb2, ?_⟩
      simp only [hv2, List.length_cons]
      omega

/-! ### C1 -/

/-- C1 counterexample: the part_001 variant's `updateStatus` succeeds but
never touches the version column — after one successful status update the
stored version is still 1, not 2, so the claim as stated fails on that
variant (its sources include part_001 lines 67-69). -/
theorem c1_counterexample :
    (BookingServiceA.updateBookingStatus (exStore .BOOKED 1) cacheUp "AC1"
        .DEPARTED none none).1.isOk = true ∧
    (findBooking (BookingServiceA.updateBookingStatus (exStore .BOOKED 1) cacheUp
        "AC1" .DEPARTED none none).2.1 "AC1").map BookingRow.version = some 1 :=
  ⟨by decide, by decide⟩

/-- C1 (amended): in the lock-protected variant
(src/air-cargo-booking/src/config/database.js), starting from a booking with
the creation-default version 1, after N successful `updateStatus` calls the
stored version equals 1 + N — it is incremented exactly once per successful
update of that variant. -/
theorem c1_version_one_plus_n (reqs : List BookingService.UpdateReq)
    (st : Store) (c : CacheState) (refId : String) (b : BookingRow)
    (hfind : findBooking st refId = some b)
    (hv : b.version = 1)
    (hok : (BookingService.runUpdates st c refId reqs).1 = .ok ()) :
    ∃ b2, findBooking (BookingService.runUpdates st c refId reqs).2.1 refId =
        some b2 ∧ b2.version = 1 + reqs.length := by
  obtain ⟨b2, hb2, hv2⟩ := runUpdates_version reqs st c refId b hfind hok
  exact ⟨b2, hb2, by omega⟩

/-- C1 witness: two successful concrete updates take the version from 1
to 3. -/
theorem c1_witness :
    ∃ b2, findBooking (BookingService.runUpdates (exStore .BOOKED 1) cacheUp "AC1"
        [⟨"L1", "T1", .DEPARTED, none, none, none⟩,
         ⟨"L2", "T2", .ARRIVED, none, none, none⟩]).2.1 "AC1" = some b2 ∧
      b2.version = 1 + 2 :=
  c1_version_one_plus_n
    [⟨"L1", "T1", .DEPARTED, none, none, none⟩,
     ⟨"L2", "T2", .ARRIVED, none, none, none⟩]
    (exStore .BOOKED 1) cacheUp "AC1" (exBooking .BOOKED 1) rfl rfl (by decide)

/-! ### C3 -/

/-- C3: in the lock-protected `updateStatus` the status write is the
conditional update gated by the version read earlier in the same
transaction; when it affects zero rows the call fails with the
concurrent-modification error; and the transaction is atomic: on any error
the store comes back unchanged, while on success the version-gated row
update and the timeline-event append are both persisted. -/
theorem c3_version_gate_atomicity (st : Store) (c : CacheState)
    (lid ts refId : String) (status : BookingStatus)
    (loc fid desc : Option String) :
    ((∃ e, (BookingService.updateBookingStatus st c lid ts refId status loc fid
        desc).1 = .error e) →
      (BookingService.updateBookingStatus st c lid ts refId status loc fid
        desc).2.1 = st) ∧
    ((∃ a, (BookingService.updateBookingStatus st c lid ts refId status loc fid
        desc).1 = .ok a) →
      ∃ b, findBooking st refId = some b ∧
        (BookingService.updateWhereRefAndVersion st.bookings refId b.version
          status).2 ≠ 0 ∧
        (BookingService.updateBookingStatus st c lid ts refId status loc fid
          desc).2.1.bookings =
          (BookingService.updateWhereRefAndVersion st.bookings refId b.version
            status).1 ∧
        (BookingService.updateBookingStatus st c lid ts refId status loc fid
          desc).2.1.timeline = st.timeline ++
          [⟨st.nextEventId, b.id, status, loc, fid,
            desc.getD ("Status updated to " ++ statusName status), st.now⟩]) ∧
    (∀ b, (RedisClient.acquireLock c ("booking_" ++ refId) lid ts).1 = some lid →
      findBooking st refId = some b →
      ¬(status = .CANCELLED ∧ b.status = .ARRIVED) →
      (BookingService.updateWhereRefAndVersion st.bookings refId b.version
        status).2 = 0 →
      (BookingService.updateBookingStatus st c lid ts refId status loc fid
        desc).1 = .error .concurrentUpdate) := by
  rcases hacq : (RedisClient.acquireLock c ("booking_" ++ refId) lid ts).1
    with _ | l
  · simp only [BookingService.updateBookingStatus, hacq]
    refine ⟨fun _ => trivial, ?_, ?_⟩
    · rintro ⟨a, ha⟩
      simp at ha
    · intro b hacq2
      simp at hacq2
  · rcases hfind : findBooking st refId with _ | b
    · simp only [BookingService.updateBookingStatus, hacq, hfind]
      refine ⟨fun _ => trivial, ?_, ?_⟩
      · rintro ⟨a, ha⟩
        simp at ha
      · intro b _ hf
        simp at hf
    · by_cases hrule : status = BookingStatus.CANCELLED ∧
          b.status = BookingStatus.ARRIVED
      · simp only [BookingService.updateBookingStatus, hacq, hfind,
          if_pos hrule]
        refine ⟨fun _ => trivial, ?_, ?_⟩
        · rintro ⟨a, ha⟩
          simp at ha
        · intro b2 _ hf hrule2 _
          obtain rfl : b = b2 := by injection hf
          exact absurd hrule hrule2
      · by_cases hz : (BookingService.updateWhereRefAndVersion st.bookings refId
            b.version status).2 = 0
        · simp only [BookingService.updateBookingStatus, hacq, hfind,
            if_neg hrule, if_pos hz]
          refine ⟨fun _ => trivial, ?_, ?_⟩
          · rintro ⟨a, ha⟩
            simp at ha
          · intro b2 _ hf _ _
            trivial
        · simp only [BookingService.updateBookingStatus, hacq, hfind,
            if_neg hrule, if_neg hz]
          refine ⟨?_, ?_, ?_⟩
          · rintro ⟨e, he⟩
            simp at he
          · intro _
            refine ⟨b, rfl, hz, ?_, ?_⟩ <;> simp [insertEvent]
          · intro b2 _ hf _ hz2
            obtain rfl : b = b2 := by injection hf
            exact absurd hz2 hz

/-- C3 witness: at a concrete BOOKED booking the call succeeds, and the
resulting store carries both the version-gated row update and the appended
timeline event. -/
theorem c3_witness :
    ∃ b, findBooking (exStore .BOOKED 1) "AC1" = some b ∧
      (BookingService.updateWhereRefAndVersion (exStore .BOOKED 1).bookings
        "AC1" b.version .DEPARTED).2 ≠ 0 ∧
      (BookingService.updateBookingStatus (exStore .BOOKED 1) cacheUp "L1" "T1"
        "AC1" .DEPARTED none none none).2.1.bookings =
        (BookingService.updateWhereRefAndVersion (exStore .BOOKED 1).bookings
          "AC1" b.version .DEPARTED).1 ∧
      (BookingService.updateBookingStatus (exStore .BOOKED 1) cacheUp "L1" "T1"
        "AC1" .DEPARTED none none none).2.1.timeline =
        (exStore .BOOKED 1).timeline ++
          [⟨(exStore .BOOKED 1).nextEventId, b.id, .DEPARTED, none, none,
            (none : Option String).getD ("Status updated to " ++
              statusName .DEPARTED), (exStore .BOOKED 1).now⟩] :=
  (c3_version_gate_atomicity (exStore .BOOKED 1) cacheUp "L1" "T1" "AC1"
    .DEPARTED none none none).2.1 ⟨⟨true, "AC1", .DEPARTED⟩, by decide⟩

/-! ### C6 and C9 -/

/-- A forced (`forceDb = true`) booking read bypasses the cache check,
returns the store aggregate and writes it to the cache. -/
theorem getBookingHistory_forced (st2 : Store) (c1 : CacheState)
    (refId : String) (agg : BookingAggregate)
    (hdb : dbAggregate st2 refId = some agg) :
    BookingServiceA.getBookingHistory st2 c1 refId true =
      (some agg, (RedisClient.cacheBooking c1 refId agg).2) := by
  simp [BookingServiceA.getBookingHistory, hdb]

/-- After the write path re-caches the store aggregate, a normal cache-first
read returns that aggregate: from the cache when the client is connected,
and from the store when it is not. -/
theorem getBookingHistory_after_cache (st2 : Store) (c1 : CacheState)
    (refId : String) (agg : BookingAggregate)
    (hdb : dbAggregate st2 refId = some agg) :
    (BookingServiceA.getBookingHistory st2
      ((RedisClient.cacheBooking c1 refId agg).2) refId false).1 = some agg := by
  rcases hcon : c1.connected
  · have hc : (RedisClient.cacheBooking c1 refId agg).2 = c1 := by
      simp [RedisClient.cacheBooking, RedisClient.set, hcon]
    rw [hc]
    simp [BookingServiceA.getBookingHistory, RedisClient.getCachedBooking,
      RedisClient.get, hcon, hdb]
  · simp [BookingServiceA.getBookingHistory, RedisClient.getCachedBooking,
      RedisClient.get, RedisClient.cacheBooking, RedisClient.set, hcon,
      kvGet_kvSet_self]

/-- Shared analysis of a successful part_001 `updateStatus`: the returned
value is the aggregate freshly read from the post-commit store (so it
carries the new status), the post-commit store read yields that same
aggregate, and the cache ends up holding it, so the next cache-first read
returns it as well. -/
theorem updateA_ok_analysis (st : Store) (c : CacheState) (refId : String)
    (status : BookingStatus) (loc desc : Option String)
    (res : Option BookingAggregate) (st2 : Store) (c2 : CacheState)
    (h : BookingServiceA.updateBookingStatus st c refId status loc desc =
        (.ok res, st2, c2)) :
    ∃ agg, res = some agg ∧ dbAggregate st2 refId = some agg ∧
      agg.booking.status = status ∧
      (BookingServiceA.getBookingHistory st2 c2 refId false).1 = some agg := by
  simp only [BookingServiceA.updateBookingStatus] at h
  rcases hfind : findBooking st refId with _ | b
  · simp only [hfind] at h
    simp at h
  · simp only [hfind] at h
    by_cases hrule : status = BookingStatus.CANCELLED ∧
        b.status = BookingStatus.DELIVERED
    · rw [if_pos hrule] at h
      simp at h
    · rw [if_neg hrule] at h
      simp only [Prod.mk.injEq, Except.ok.injEq] at h
      obtain ⟨hres, hst2, hc2⟩ := h
      have hfind2 : findBooking st2 refId = some { b with status := status } := by
        rw [← hst2]
        have hf : st.bookings.find? (fun x => x.refId == refId) = some b := hfind
        simp only [findBooking, insertEvent]
        exact find_setStatus st.bookings refId b status hf
      have hdb : dbAggregate st2 refId =
          some ⟨{ b with status := status },
            legRows st2 ({ b with status := status } : BookingRow).id,
            timelineRows st2 ({ b with status := status } : BookingRow).id⟩ := by
        unfold dbAggregate
        rw [hfind2]
        rfl
      rw [hst2] at hres hc2
      rw [getBookingHistory_forced st2 _ refId _ hdb] at hres hc2
      refine ⟨_, hres.symm, hdb, rfl, ?_⟩
      rw [← hc2]
      exact getBookingHistory_after_cache st2 _ refId _ hdb

/-- C6: after a successful part_001 `updateStatus`, the write path has
deleted the cached entry and repopulated it from the persistence store, so
a subsequent `getBookingHistory` returns the post-update status (the new
status), never the pre-update one: its result is exactly the post-commit
store aggregate, whose status is the requested one. -/
theorem c6_cache_coherence (st : Store) (c : CacheState) (refId : String)
    (status : BookingStatus) (loc desc : Option String)
    (res : Option BookingAggregate) (st2 : Store) (c2 : CacheState)
    (h : BookingServiceA.updateBookingStatus st c refId status loc desc =
        (.ok res, st2, c2)) :
    ∃ agg, dbAggregate st2 refId = some agg ∧ agg.booking.status = status ∧
      (BookingServiceA.getBookingHistory st2 c2 refId false).1 = some agg := by
  obtain ⟨agg, -, hdb, hstat, hread⟩ :=
    updateA_ok_analysis st c refId status loc desc res st2 c2 h
  exact ⟨agg, hdb, hstat, hread⟩

/-- The concrete result components of
`BookingServiceA.updateBookingStatus (exStore .BOOKED 1) cacheUp "AC1"
.DEPARTED none none`, used by witnesses. -/
def c6aAgg : BookingAggregate :=
  ⟨⟨1, "AC1", 7, "DEL", "BLR", 2, 10, .DEPARTED, 1⟩, [],
   [⟨1, 1, .DEPARTED, none, none, "Status updated to DEPARTED", 100⟩]⟩

def c6aSt2 : Store :=
  ⟨[⟨1, "AC1", 7, "DEL", "BLR", 2, 10, .DEPARTED, 1⟩], [],
   [⟨1, 1, .DEPARTED, none, none, "Status updated to DEPARTED", 100⟩],
   [], 2, 2, 100⟩

def c6aC2 : CacheState := ⟨true, [("booking:AC1", c6aAgg)], []⟩

/-- C6 witness: the concrete successful update leaves the store aggregate
with status DEPARTED and the subsequent read returns it. -/
theorem c6_witness :
    ∃ agg, dbAggregate c6aSt2 "AC1" = some agg ∧
      agg.booking.status = .DEPARTED ∧
      (BookingServiceA.getBookingHistory c6aSt2 c6aC2 "AC1" false).1 = some agg :=
  c6_cache_coherence (exStore .BOOKED 1) cacheUp "AC1" .DEPARTED none none
    (some c6aAgg) c6aSt2 c6aC2 (by decide)

/-- C9 counterexample: the lock-protected variant returns only the
acknowledgement `{success, refId, status}`, not the re-fetched aggregate:
two stores whose timelines differ produce identical return values even
though the hydrated post-update aggregates differ, so the returned value
cannot be the booking re-fetched through the read path. -/
theorem c9_counterexample :
    (BookingService.updateBookingStatus (exStore .BOOKED 1) cacheUp "L1" "T1"
        "AC1" .DEPARTED none none none).1 =
      (BookingService.updateBookingStatus (exStoreT .BOOKED 1) cacheUp "L1" "T1"
        "AC1" .DEPARTED none none none).1 ∧
    dbAggregate (BookingService.updateBookingStatus (exStore .BOOKED 1) cacheUp
        "L1" "T1" "AC1" .DEPARTED none none none).2.1 "AC1" ≠
      dbAggregate (BookingService.updateBookingStatus (exStoreT .BOOKED 1)
        cacheUp "L1" "T1" "AC1" .DEPARTED none none none).2.1 "AC1" :=
  ⟨by decide, by decide⟩

/-- C9 (amended): in the part_001 variant a successful `updateStatus` does
return the booking re-fetched after invalidation — the full hydrated
aggregate read from the post-commit store (via a forced store read that also
repopulates the cache), not merely an acknowledgement. -/
theorem c9_returns_refetched (st : Store) (c : CacheState) (refId : String)
    (status : BookingStatus) (loc desc : Option String)
    (res : Option BookingAggregate) (st2 : Store) (c2 : CacheState)
    (h : BookingServiceA.updateBookingStatus st c refId status loc desc =
        (.ok res, st2, c2)) :
    res = dbAggregate st2 refId ∧ res.isSome = true := by
  obtain ⟨agg, hres, hdb, -, -⟩ :=
    updateA_ok_analysis st c refId status loc desc res st2 c2 h
  rw [hres, hdb]
  exact ⟨rfl, rfl⟩

/-- C9 witness: the concrete successful update returns exactly the
re-fetched aggregate of the post-commit store. -/
theorem c9_witness :
    (some c6aAgg : Option BookingAggregate) = dbAggregate c6aSt2 "AC1" ∧
    (some c6aAgg : Option BookingAggregate).isSome = true :=
  c9_returns_refetched (exStore .BOOKED 1) cacheUp "AC1" .DEPARTED none none
    (some c6aAgg) c6aSt2 c6aC2 (by decide)

/-! ### C7 -/

/-- C7: every transit route returned by the route finder has exactly two
legs through one hub with leg1.origin = origin,
leg1.destination = leg2.origin, leg2.destination = destination, leg1
departing within the queried day and no earlier than now, leg2 departing no
later than 24 hours after leg1's departure and strictly after leg1's
arrival, and a layover between 60 and 1440 minutes inclusive; the list is
ordered by total duration ascending then leg1 departure ascending and
contains at most 50 results. -/
theorem c7_transit_routes (flights : List FlightRow)
    (origin destination : String) (dayStart dayEnd nowT : Int) :
    (∀ r ∈ FlightService.getTransitRoutes flights origin destination dayStart
        dayEnd nowT,
      r.leg1.origin = origin ∧ r.leg1.destination = r.leg2.origin ∧
      r.leg2.destination = destination ∧
      r.leg1.segOrder = 1 ∧ r.leg2.segOrder = 2 ∧
      r.transitHub = r.leg1.destination ∧
      dayStart ≤ r.leg1.departure ∧ r.leg1.departure ≤ dayEnd ∧
      nowT ≤ r.leg1.departure ∧
      r.leg2.departure ≤ r.leg1.departure + 1440 ∧
      r.leg1.arrival < r.leg2.departure ∧
      60 ≤ r.layoverMinutes ∧ r.layoverMinutes ≤ 1440 ∧
      r.layoverMinutes = r.leg2.departure - r.leg1.arrival ∧
      r.totalDuration = r.leg2.arrival - r.leg1.departure) ∧
    List.Pairwise (fun a b => a.totalDuration < b.totalDuration ∨
      (a.totalDuration = b.totalDuration ∧
        a.leg1.departure ≤ b.leg1.departure))
      (FlightService.getTransitRoutes flights origin destination dayStart
        dayEnd nowT) ∧
    (FlightService.getTransitRoutes flights origin destination dayStart dayEnd
      nowT).length ≤ 50 := by
  haveI instTot : IsTotal (FlightRow × FlightRow) FlightService.transitLe :=
    ⟨by
      intro a b
      unfold FlightService.transitLe
      omega⟩
  haveI instTrans : IsTrans (FlightRow × FlightRow) FlightService.transitLe :=
    ⟨by
      intro a b c hab hbc
      unfold FlightService.transitLe at hab hbc ⊢
      omega⟩
  refine ⟨?_, ?_, ?_⟩
  · intro r hr
    simp only [FlightService.getTransitRoutes, List.mem_map] at hr
    obtain ⟨p, hp, rfl⟩ := hr
    have hp2 : p ∈ (flights.flatMap (fun f1 => flights.map
        fun f2 => (f1, f2))).filter
        (FlightService.transitCond origin destination dayStart dayEnd nowT) :=
      (List.mem_insertionSort FlightService.transitLe).mp
        ((List.take_sublist 50 _).mem hp)
    have hcond := (List.mem_filter.mp hp2).2
    simp only [FlightService.transitCond, Bool.and_eq_true, beq_iff_eq,
      decide_eq_true_eq] at hcond
    obtain ⟨⟨⟨⟨⟨⟨⟨⟨⟨h1, h2⟩, h3⟩, h4⟩, h5⟩, h6⟩, h7⟩, h8⟩, h9⟩, h10⟩ := hcond
    exact ⟨h2, h1, h3, rfl, rfl, rfl, h4, h5, h6, h7, h10, h8, h9, rfl, rfl⟩
  · have hs := List.sorted_insertionSort FlightService.transitLe
      ((flights.flatMap (fun f1 => flights.map fun f2 => (f1, f2))).filter
        (FlightService.transitCond origin destination dayStart dayEnd nowT))
    have htake := hs.sublist (List.take_sublist 50 _)
    simp only [FlightService.getTransitRoutes]
    refine List.Pairwise.map FlightService.mkTransitRoute ?_ htake
    intro a b hab
    simpa [FlightService.mkTransitRoute, FlightService.transitLe] using hab
  · simp only [FlightService.getTransitRoutes, List.length_map,
      List.length_take]
    omega

/-- C7 witness: on a concrete two-flight table the DEL to BLR transit route
through HYD is returned and satisfies the endpoint constraints. -/
theorem c7_witness :
    (FlightService.mkTransitRoute (exFlight1, exFlight2)).leg1.origin =
      "DEL" ∧
    (FlightService.mkTransitRoute (exFlight1, exFlight2)).leg1.destination =
      (FlightService.mkTransitRoute (exFlight1, exFlight2)).leg2.origin ∧
    (FlightService.mkTransitRoute (exFlight1, exFlight2)).leg2.destination =
      "BLR" := by
  have h := (c7_transit_routes [exFlight1, exFlight2] "DEL" "BLR" 0 1440 0).1
    (FlightService.mkTransitRoute (exFlight1, exFlight2)) (by decide)
  exact ⟨h.1, h.2.1, h.2.2.1⟩

/-! ### C8 helpers -/

/-- The rows the `createBooking` leg loop inserts for booking `bid` from the
id list, with sequence order starting at `i`. -/
def legsFrom (bid : Nat) : List String → Nat → List BookingFlightRow
  | [], _ => []
  | fid :: rest, i => ⟨bid, fid, i⟩ :: legsFrom bid rest (i + 1)

theorem legsFrom_bookingId (bid : Nat) (ids : List String) (i : Nat) :
    ∀ x ∈ legsFrom bid ids i, x.bookingId = bid := by
  induction ids generalizing i with
  | nil => simp [legsFrom]
  | cons fid rest ih =>
    intro x hx
    rcases List.mem_cons.mp hx with rfl | hx2
    · rfl
    · exact ih (i + 1) x hx2

theorem legsFrom_seq_ge (bid : Nat) (ids : List String) (i : Nat) :
    ∀ x ∈ legsFrom bid ids i, i ≤ x.seqOrder := by
  induction ids generalizing i with
  | nil => simp [legsFrom]
  | cons fid rest ih =>
    intro x hx
    rcases List.mem_cons.mp hx with rfl | hx2
    · exact Nat.le_refl i
    · exact Nat.le_of_succ_le (ih (i + 1) x hx2)

theorem legsFrom_pairwise (bid : Nat) (ids : List String) (i : Nat) :
    List.Pairwise (fun a b : BookingFlightRow => a.seqOrder ≤ b.seqOrder)
      (legsFrom bid ids i) := by
  induction ids generalizing i with
  | nil => simp [legsFrom]
  | cons fid rest ih =>
    refine List.pairwise_cons.mpr ⟨?_, ih (i + 1)⟩
    intro x hx
    exact Nat.le_of_succ_le (legsFrom_seq_ge bid rest (i + 1) x hx)

theorem legsFrom_filter_self (bid : Nat) (ids : List String) (i : Nat) :
    (legsFrom bid ids i).filter (fun bf => bf.bookingId == bid) =
      legsFrom bid ids i := by
  rw [List.filter_eq_self]
  intro x hx
  simp [legsFrom_bookingId bid ids i x hx]

/-- The leg rows inserted for a fresh booking, JOINed with the flights
table, list exactly the supplied flight ids in order with sequence numbers
`i`, `i+1`, .... -/
theorem legViews_maps (flights : List FlightRow) (bid : Nat)
    (ids : List String) (i : Nat)
    (hex : ∀ fid ∈ ids, flights.any (fun f => f.flightId == fid) = true) :
    ((legsFrom bid ids i).filterMap (fun bf =>
        (flights.find? (fun f => f.flightId == bf.flightId)).map
          (fun f => (⟨bf.flightId, bf.seqOrder, f.flightNumber,
            f.airlineName⟩ : LegView)))).map LegView.flightId = ids ∧
    ((legsFrom bid ids i).filterMap (fun bf =>
        (flights.find? (fun f => f.flightId == bf.flightId)).map
          (fun f => (⟨bf.flightId, bf.seqOrder, f.flightNumber,
            f.airlineName⟩ : LegView)))).map LegView.seqOrder =
      List.range' i ids.length := by
  induction ids generalizing i with
  | nil => simp [legsFrom]
  | cons fid rest ih =>
    have h2 := hex fid (List.mem_cons_self _ _)
    have hsome : (flights.find? (fun f => f.flightId == fid)).isSome = true := by
      rw [List.find?_isSome]
      exact List.any_eq_true.mp h2
    obtain ⟨f, hf⟩ := Option.isSome_iff_exists.mp hsome
    have ihr := ih (i + 1) (fun fid2 hm => hex fid2 (List.mem_cons_of_mem _ hm))
    simp only [legsFrom, List.filterMap_cons, hf, Option.map_some', List.map_cons,
      ihr.1, ihr.2, List.length_cons, List.range'_succ]
    simp

/-- The leg-insert loop of `createBooking` succeeds and appends exactly the
rows `legsFrom bid ids i` when the ids are distinct, every id exists in the
flights table, and no (bid, id) row pre-exists. -/
theorem insertLegs_ok (ids : List String) (st : Store) (bid : Nat) (i : Nat)
    (hnodup : ids.Nodup)
    (hex : ∀ fid ∈ ids, st.flights.any (fun f => f.flightId == fid) = true)
    (hfresh : ∀ fid ∈ ids, st.bookingFlights.any
      (fun r => r.bookingId == bid && r.flightId == fid) = false) :
    BookingServiceA.insertLegs st bid ids i =
      .ok { st with bookingFlights := st.bookingFlights ++ legsFrom bid ids i } := by
  induction ids generalizing st i with
  | nil => simp [BookingServiceA.insertLegs, legsFrom]
  | cons fid rest ih =>
    have h1 := hfresh fid (List.mem_cons_self _ _)
    have h2 := hex fid (List.mem_cons_self _ _)
    have hne : ∀ fid2 ∈ rest, (fid == fid2) = false := by
      intro fid2 hm
      have : fid ≠ fid2 := by
        intro hcontra
        exact (List.nodup_cons.mp hnodup).1 (hcontra ▸ hm)
      simpa using this
    simp only [BookingServiceA.insertLegs, h1, Bool.false_eq_true, if_false,
      h2, if_true]
    rw [ih]
    · simp [legsFrom]
    · exact (List.nodup_cons.mp hnodup).2
    · intro fid2 hm
      simpa using hex fid2 (List.mem_cons_of_mem _ hm)
    · intro fid2 hm
      simp only [List.any_append]
      rw [hfresh fid2 (List.mem_cons_of_mem _ hm)]
      simp [hne fid2 hm]

/-! ### C8 -/

/-- C8 round-trip: for a `createBooking` supplied with distinct flight ids
that exist in the flights table (the foreign key and the unique
(booking, flight) key of the schema), against a store whose rows do not
collide with the generated reference code or the fresh booking id, the call
succeeds and the returned aggregate — and the one a subsequent
`getBookingHistory` on the returned reference code yields — lists exactly
the supplied flight ids in order with sequence positions 1..k and has a
timeline consisting of exactly one BOOKED event. -/
theorem c8_round_trip (st : Store) (c : CacheState) (newRefId : String)
    (d : BookingServiceA.BookingData) (flightIds : List String)
    (href : ∀ b ∈ st.bookings, b.refId ≠ newRefId)
    (hbf : ∀ bf ∈ st.bookingFlights, bf.bookingId ≠ st.nextBookingId)
    (hev : ∀ e ∈ st.timeline, e.bookingId ≠ st.nextBookingId)
    (hnodup : flightIds.Nodup)
    (hex : ∀ fid ∈ flightIds, st.flights.any (fun f => f.flightId == fid) = true) :
    ∃ agg,
      (BookingServiceA.createBooking st c newRefId d flightIds).1 =
        .ok (some agg) ∧
      agg.flights.map LegView.flightId = flightIds ∧
      agg.flights.map LegView.seqOrder = List.range' 1 flightIds.length ∧
      agg.timeline.map TimelineRow.eventType = [.BOOKED] ∧
      (BookingServiceA.getBookingHistory
        (BookingServiceA.createBooking st c newRefId d flightIds).2.1
        (BookingServiceA.createBooking st c newRefId d flightIds).2.2
        newRefId false).1 = some agg := by
  have hdup : st.bookings.any (fun b => b.refId == newRefId) = false := by
    rw [List.any_eq_false]
    intro b hb
    simpa using href b hb
  have hlegs := insertLegs_ok flightIds
    { st with
      bookings := st.bookings ++
        [⟨st.nextBookingId, newRefId, d.userId, d.origin, d.destination,
          d.pieces, d.weightKg, .BOOKED, 1⟩],
      nextBookingId := st.nextBookingId + 1 }
    st.nextBookingId 1 hnodup hex
    (by
      intro fid hm
      rw [List.any_eq_false]
      intro r hr
      simp [hbf r hr])
  simp only [BookingServiceA.createBooking, hdup, Bool.false_eq_true,
    if_false, hlegs]
  set stmid : Store :=
    { st with
      bookings := st.bookings ++
        [⟨st.nextBookingId, newRefId, d.userId, d.origin, d.destination,
          d.pieces, d.weightKg, .BOOKED, 1⟩],
      bookingFlights := st.bookingFlights ++
        legsFrom st.nextBookingId flightIds 1,
      nextBookingId := st.nextBookingId + 1 } with hstmid
  set st3 : Store := insertEvent stmid st.nextBookingId .BOOKED (some d.origin)
    flightIds.head? "Booking created successfully" with hst3
  have hfindnone : st.bookings.find? (fun b => b.refId == newRefId) = none := by
    rw [List.find?_eq_none]
    intro b hb
    simpa using href b hb
  have hfindrow : findBooking st3 newRefId =
      some ⟨st.nextBookingId, newRefId, d.userId, d.origin, d.destination,
        d.pieces, d.weightKg, .BOOKED, 1⟩ := by
    rw [hst3, hstmid]
    simp only [findBooking, insertEvent]
    rw [List.find?_append, hfindnone]
    simp [List.find?_cons]
  have hfilterlegs : st3.bookingFlights.filter
      (fun bf => bf.bookingId == st.nextBookingId) =
      legsFrom st.nextBookingId flightIds 1 := by
    rw [hst3, hstmid]
    simp only [insertEvent]
    rw [List.filter_append]
    have hnil : st.bookingFlights.filter
        (fun bf => bf.bookingId == st.nextBookingId) = [] := by
      rw [List.filter_eq_nil_iff]
      intro a ha
      simpa using hbf a ha
    rw [hnil, legsFrom_filter_self]
    simp
  have hfl : st3.flights = st.flights := by
    rw [hst3, hstmid]
    simp [insertEvent]
  have hmaps := legViews_maps st.flights st.nextBookingId flightIds 1 hex
  have haggfl1 : (legRows st3 st.nextBookingId).map LegView.flightId =
      flightIds := by
    simp only [legRows]
    rw [hfilterlegs,
      List.Sorted.insertionSort_eq (legsFrom_pairwise st.nextBookingId flightIds 1),
      hfl]
    exact hmaps.1
  have haggfl2 : (legRows st3 st.nextBookingId).map LegView.seqOrder =
      List.range' 1 flightIds.length := by
    simp only [legRows]
    rw [hfilterlegs,
      List.Sorted.insertionSort_eq (legsFrom_pairwise st.nextBookingId flightIds 1),
      hfl]
    exact hmaps.2
  have htl : timelineRows st3 st.nextBookingId =
      [⟨st.nextEventId, st.nextBookingId, .BOOKED, some d.origin,
        flightIds.head?, "Booking created successfully", st.now⟩] := by
    rw [hst3, hstmid]
    simp only [timelineRows, insertEvent]
    rw [List.filter_append]
    have hnil : st.timeline.filter
        (fun e => e.bookingId == st.nextBookingId) = [] := by
      rw [List.filter_eq_nil_iff]
      intro a ha
      simpa using hev a ha
    rw [hnil]
    simp [List.insertionSort]
  have hdb : dbAggregate st3 newRefId =
      some ⟨⟨st.nextBookingId, newRefId, d.userId, d.origin, d.destination,
          d.pieces, d.weightKg, .BOOKED, 1⟩,
        legRows st3 st.nextBookingId, timelineRows st3 st.nextBookingId⟩ := by
    simp only [dbAggregate, hfindrow, Option.map_some']
  rw [getBookingHistory_forced st3 c newRefId _ hdb]
  refine ⟨⟨⟨st.nextBookingId, newRefId, d.userId, d.origin, d.destination,
      d.pieces, d.weightKg, .BOOKED, 1⟩,
    legRows st3 st.nextBookingId, timelineRows st3 st.nextBookingId⟩,
    rfl, haggfl1, haggfl2, ?_, ?_⟩
  · simp [htl]
  · exact getBookingHistory_after_cache st3 _ newRefId _ hdb

/-- C8 witness: a concrete creation against a two-flight table round-trips
with flights [F1, F2] at sequences [1, 2] and a single BOOKED event. -/
theorem c8_witness :
    ∃ agg,
      (BookingServiceA.createBooking exStoreF cacheUp "ACX"
        ⟨7, "DEL", "BLR", 1, 5⟩ ["F1", "F2"]).1 = .ok (some agg) ∧
      agg.flights.map LegView.flightId = ["F1", "F2"] ∧
      agg.flights.map LegView.seqOrder =
        List.range' 1 (["F1", "F2"] : List String).length ∧
      agg.timeline.map TimelineRow.eventType = [.BOOKED] ∧
      (BookingServiceA.getBookingHistory
        (BookingServiceA.createBooking exStoreF cacheUp "ACX"
          ⟨7, "DEL", "BLR", 1, 5⟩ ["F1", "F2"]).2.1
        (BookingServiceA.createBooking exStoreF cacheUp "ACX"
          ⟨7, "DEL", "BLR", 1, 5⟩ ["F1", "F2"]).2.2
        "ACX" false).1 = some agg :=
  c8_round_trip exStoreF cacheUp "ACX" ⟨7, "DEL", "BLR", 1, 5⟩ ["F1", "F2"]
    (by decide) (by decide) (by decide) (by decide) (by decide)

/-! ### C4 -/

/-- C4: when the per-booking lock is already held, the lock-protected
`updateBookingStatus` fails with the lock error after the single acquisition
attempt, and neither the store (booking row, timeline) nor the cache state
is read from or written to: both come back exactly unchanged. -/
theorem c4_lock_held_fails_immediately (st : Store) (c : CacheState)
    (lockId ts refId : String) (status : BookingStatus)
    (loc fid desc : Option String) (v : String)
    (hheld : kvGet c.locks ("lock:" ++ ("booking_" ++ refId)) = some v) :
    BookingService.updateBookingStatus st c lockId ts refId status loc fid desc =
      (.error .lockUnavailable, st, c) := by
  have hacq := acquireLock_held c ("booking_" ++ refId) lockId ts v hheld
  simp only [BookingService.updateBookingStatus, hacq, releaseLock_none]

/-- C4 witness: with the lock on AC1 held by another holder, the update on a
BOOKED booking fails with the lock error and changes nothing. -/
theorem c4_witness :
    kvGet cacheHeld.locks ("lock:" ++ ("booking_" ++ "AC1")) = some "X:1" ∧
    BookingService.updateBookingStatus (exStore .BOOKED 1) cacheHeld "L1" "T1"
        "AC1" .DEPARTED none none none =
      (.error .lockUnavailable, exStore .BOOKED 1, cacheHeld) :=
  ⟨rfl, c4_lock_held_fails_immediately (exStore .BOOKED 1) cacheHeld "L1" "T1"
    "AC1" .DEPARTED none none none "X:1" rfl⟩

/-! ### C5 -/

/-- C5: `releaseLock` deletes the lock entry exactly when the stored value
still belongs to the holder of the given token (the value starts with the
token followed by the colon separator, as written by `acquireLock`); when
the stored value belongs to a different holder the entry is left in place,
and the returned boolean reports whether the release removed the lock. -/
theorem c5_release_only_own_lock (c : CacheState) (lockKey lid : String) :
    ((RedisClient.releaseLock c lockKey (some lid)).1 = true →
      ∃ v, kvGet c.locks ("lock:" ++ lockKey) = some v ∧
        strStartsWith v (lid ++ ":") = true ∧
        (RedisClient.releaseLock c lockKey (some lid)).2 =
          { c with locks := kvDel c.locks ("lock:" ++ lockKey) }) ∧
    (∀ v, kvGet c.locks ("lock:" ++ lockKey) = some v →
      strStartsWith v (lid ++ ":") = false →
      (RedisClient.releaseLock c lockKey (some lid)).1 = false ∧
      (RedisClient.releaseLock c lockKey (some lid)).2 = c) ∧
    ((RedisClient.releaseLock c lockKey (some lid)).1 = false →
      (RedisClient.releaseLock c lockKey (some lid)).2 = c) := by
  unfold RedisClient.releaseLock
  rcases hc : c.connected
  · simp
  · simp only [if_true]
    by_cases hk : (lockKey == "") = true
    · simp [hk]
    · simp only [Bool.not_eq_true] at hk
      rcases hv : kvGet c.locks ("lock:" ++ lockKey) with _ | v
      · simp [hk, hv]
      · by_cases hlid : (lid == "") = true
        · simp [hk, hv, hlid]
        · simp only [Bool.not_eq_true] at hlid
          by_cases hs : strStartsWith v (lid ++ ":") = true
          · simp [hk, hv, hlid, hs]
          · simp only [Bool.not_eq_true] at hs
            simp [hk, hv, hlid, hs]

/-- C5 witness: the holder of token X removes its own lock; a different
token Y leaves the entry in place and returns false. -/
theorem c5_witness :
    (RedisClient.releaseLock cacheHeld "booking_AC1" (some "X")).1 = true ∧
    (RedisClient.releaseLock cacheHeld "booking_AC1" (some "Y")).1 = false ∧
    (RedisClient.releaseLock cacheHeld "booking_AC1" (some "Y")).2 = cacheHeld := by
  refine ⟨by decide, ?_⟩
  have h := (c5_release_only_own_lock cacheHeld "booking_AC1" "Y").2.1
    "X:1" rfl (by decide)
  exact h

/-! ### C10 -/

/-- C10: with the cache client disconnected, `acquireLock` returns null
rather than throwing, so the lock-protected `updateBookingStatus` fails with
the lock-acquisition error and touches neither the store nor the cache —
status updates do not degrade to a store-only path — while cached reads do
degrade: `getBookingHistory` still answers from the persistence store. -/
theorem c10_cache_down_no_degrade (st : Store) (c : CacheState)
    (lockId ts refId key : String) (status : BookingStatus)
    (loc fid desc : Option String)
    (h : c.connected = false) :
    RedisClient.acquireLock c key lockId ts = (none, c) ∧
    BookingService.updateBookingStatus st c lockId ts refId status loc fid desc =
      (.error .lockUnavailable, st, c) ∧
    (BookingServiceA.getBookingHistory st c refId false).1 = dbAggregate st refId := by
  have hacq : ∀ k : String, RedisClient.acquireLock c k lockId ts = (none, c) := by
    intro k
    unfold RedisClient.acquireLock
    simp [h]
  refine ⟨hacq key, ?_, ?_⟩
  · simp only [BookingService.updateBookingStatus, hacq, releaseLock_none]
  · unfold BookingServiceA.getBookingHistory
    have hget : RedisClient.getCachedBooking c refId = none := by
      unfold RedisClient.getCachedBooking RedisClient.get
      simp [h]
    rw [hget]
    rcases hdb : dbAggregate st refId with _ | agg <;> simp [hdb]

/-- C10 witness: concrete disconnected cache, booking present in the store:
the update fails with the lock error and the read still returns the store
aggregate. -/
theorem c10_witness :
    BookingService.updateBookingStatus (exStore .BOOKED 1) cacheDown "L1" "T1"
        "AC1" .DEPARTED none none none =
      (.error .lockUnavailable, exStore .BOOKED 1, cacheDown) ∧
    (BookingServiceA.getBookingHistory (exStore .BOOKED 1) cacheDown "AC1" false).1 =
      dbAggregate (exStore .BOOKED 1) "AC1" :=
  ⟨(c10_cache_down_no_degrade (exStore .BOOKED 1) cacheDown "L1" "T1" "AC1" "k"
      .DEPARTED none none none rfl).2.1,
   (c10_cache_down_no_degrade (exStore .BOOKED 1) cacheDown "L1" "T1" "AC1" "k"
      .DEPARTED none none none rfl).2.2⟩

/-! ### C2 -/

/-- C2 counterexample: in the lock-protected variant
(src/air-cargo-booking/src/config/database.js) the business rule only
rejects CANCELLED when the current status is ARRIVED, so cancelling a
DELIVERED booking SUCCEEDS: the stored status becomes CANCELLED and the
version is incremented — the claim as stated fails on this variant. -/
theorem c2_counterexample :
    (BookingService.updateBookingStatus (exStore .DELIVERED 1) cacheUp "L1" "T1"
        "AC1" .CANCELLED none none none).1 = .ok ⟨true, "AC1", .CANCELLED⟩ ∧
    (findBooking (BookingService.updateBookingStatus (exStore .DELIVERED 1)
        cacheUp "L1" "T1" "AC1" .CANCELLED none none none).2.1 "AC1").map
      BookingRow.status = some .CANCELLED ∧
    (findBooking (BookingService.updateBookingStatus (exStore .DELIVERED 1)
        cacheUp "L1" "T1" "AC1" .CANCELLED none none none).2.1 "AC1").map
      BookingRow.version = some 2 := by
  refine ⟨by decide, by decide, by decide⟩

/-- C2 (amended): in the part_001 variant, `updateStatus` with CANCELLED on
a booking currently DELIVERED fails with the business-rule error and leaves
the store (status and version included) and the cache exactly unchanged. -/
theorem c2_delivered_cancel_blocked (st : Store) (c : CacheState)
    (refId : String) (b : BookingRow) (loc desc : Option String)
    (hfind : findBooking st refId = some b)
    (hst : b.status = .DELIVERED) :
    BookingServiceA.updateBookingStatus st c refId .CANCELLED loc desc =
      (.error .cannotCancelDelivered, st, c) := by
  unfold BookingServiceA.updateBookingStatus
  rw [hfind]
  simp [hst]

/-- C2 witness: concrete DELIVERED booking, part_001 variant: the cancel is
rejected and nothing changes. -/
theorem c2_witness :
    BookingServiceA.updateBookingStatus (exStore .DELIVERED 1) cacheUp "AC1"
        .CANCELLED none none =
      (.error .cannotCancelDelivered, exStore .DELIVERED 1, cacheUp) :=
  c2_delivered_cancel_blocked (exStore .DELIVERED 1) cacheUp "AC1"
    (exBooking .DELIVERED 1) none none rfl rfl

end AirCargo
